import Mathlib

/-!
Verification of the Movey login credential store of the move CLI
(source file: language/tools/move-cli/src/login/cli.rs).

The Rust code is shallowly embedded as pure Lean functions over an explicit
world state.  The filesystem, the process environment and the possible
OS-level failures of each primitive (directory creation, file creation,
reading, writing, re-opening, permission setting) are fields of a `World`
record; `save_credential` threads the world through the same sequence of
steps as the source and returns an `Out Unit` distinguishing normal return,
a Rust `Result` error (`bail` or the question-mark operator) and a process
abort (`unwrap` / `expect`).

The TOML library (`toml_edit::easy`) is external to the repository; it is
modelled by its contract: a parsed document is a table of key-value pairs
(`Toml.table`), serializing a document and parsing the result yields the
same document, the empty file parses to the empty table, and non-TOML text
fails to parse.  File contents are therefore represented by `TomlText`:
either the rendering of a document, the empty text, or invalid text.
-/

namespace MoveLogin

/-- Outcome of an embedded Rust computation: normal value, a recoverable
`Result` error (from `bail` or the question-mark operator), or a process
abort (from `unwrap` / `expect`). -/
inductive Out (α : Type) where
  | ok : α → Out α
  | err : String → Out α
  | panic : String → Out α

/-- A TOML value as exposed by `toml_edit::easy::Value`: the code only
distinguishes tables (via `as_table_mut`) from non-table values, and inserts
string values; other scalar shapes are represented by `str` and `int`. -/
inductive Toml where
  | str : String → Toml
  | int : Int → Toml
  | table : List (String × Toml) → Toml

/-- `Value::as_table_mut`: `some` exactly on tables. -/
def asTable : Toml → Option (List (String × Toml))
  | Toml.table t => some t
  | _ => none

/-- Lookup in an association list (the embedding of `Map::get_mut`). -/
def alget {α : Type} (m : List (String × α)) (k : String) : Option α :=
  match m with
  | [] => none
  | (ka, v) :: rest => if ka = k then some v else alget rest k

/-- Replace-or-append in an association list: the embedding of assigning
through `get_mut` when the key is present (the entry keeps its position)
and of `Map::insert` when it is absent (the entry is appended). -/
def alset {α : Type} (m : List (String × α)) (k : String) (v : α) : List (String × α) :=
  match m with
  | [] => [(k, v)]
  | (ka, va) :: rest => if ka = k then (k, v) :: rest else (ka, va) :: alset rest k v

/-- On-disk text of the credential file, abstracted by the TOML library
contract: `render t` is the serializer output `Value::Table(t).to_string()`,
`empty` is a zero-byte file, `invalid` is text that fails to parse. -/
inductive TomlText where
  | empty : TomlText
  | render : List (String × Toml) → TomlText
  | invalid : TomlText

/-- `old_contents.parse::<Value>()` (cli.rs lines 82-84): parsing always
yields a top-level table; the empty string parses to the empty table; the
error is reported with the parse-context message. -/
def parseToml : TomlText → Except String Toml
  | TomlText.empty => Except.ok (Toml.table [])
  | TomlText.render t => Except.ok (Toml.table t)
  | TomlText.invalid => Except.error "could not parse input as TOML"

/-- The merge step of `save_credential` (cli.rs lines 86-101), applied to the
top-level table obtained from `toml.as_table_mut().unwrap()`.  If a
"registry" entry exists it must be a table (`as_table_mut().unwrap()`,
aborting otherwise); its "token" field is assigned when present and inserted
when absent, which in both cases is `alset`.  Without a "registry" entry a
fresh table holding only "token" is inserted. -/
def mergeToken (top : List (String × Toml)) (token : String) : Out (List (String × Toml)) :=
  match alget top "registry" with
  | some registry =>
    match asTable registry with
    | none => Out.panic "called unwrap on a None value"
    | some rt => Out.ok (alset top "registry" (Toml.table (alset rt "token" (Toml.str token))))
  | none => Out.ok (alset top "registry" (Toml.table [("token", Toml.str token)]))

/-- Test-mode override carried into `save_credential` (cli.rs lines 9-11). -/
structure TestMode where
  test_path : String

/-- A file on disk: its text and its permission bits. -/
structure FsFile where
  data : TomlText
  mode : Nat

/-- The world state threaded through `save_credential`: the process
environment, the filesystem (directories and files), the permission bits a
newly created file receives, and oracles describing which primitive
operations the OS makes fail (with, for reads, the OS error text). -/
structure World where
  env : List (String × String)
  dirs : List String
  files : List (String × FsFile)
  createMode : Nat
  readErr : List (String × String)
  mkdirErr : List String
  createErr : List String
  writeErr : List String
  openErr : List String
  permErr : List String

/-- `fs::create_dir_all` on success: record the directory (idempotent). -/
def addDir (w : World) (d : String) : World :=
  { w with dirs := if w.dirs.contains d then w.dirs else d :: w.dirs }

/-- Store a file at a path, replacing any previous file there. -/
def putFile (w : World) (p : String) (f : FsFile) : World :=
  { w with files := alset w.files p f }

/-- `fs::write` on success: replace the contents, keeping the permission
bits of an existing file (a fresh file would get the creation mode). -/
def writeFs (w : World) (p : String) (d : TomlText) : World :=
  { w with files :=
      match alget w.files p with
      | some f => alset w.files p { data := d, mode := f.mode }
      | none => alset w.files p { data := d, mode := w.createMode } }

/-- Change the permission bits of the file at a path, if present. -/
def setMode (w : World) (p : String) (m : Nat) : World :=
  { w with files :=
      match alget w.files p with
      | some f => alset w.files p { data := f.data, mode := m }
      | none => w.files }

/-- `fs::read_to_string` (cli.rs line 76): the OS may deny the read (the
oracle supplies the OS error text); otherwise the file contents are
returned, and a missing file is itself an OS error. -/
def readToString (w : World) (p : String) : Except String TomlText :=
  match alget w.readErr p with
  | some oserr => Except.error oserr
  | none =>
    match alget w.files p with
    | some f => Except.ok f.data
    | none => Except.error "No such file or directory (os error 2)"

/-- Home-directory resolution inside `save_credential` (cli.rs lines 54-67):
with a test override, `TEST_MOVE_HOME` is read with `unwrap` (abort when
unset) and the override suffix is appended when non-empty; otherwise
`MOVE_HOME` is read, falling back to `HOME ++ "/.move"`, with `expect`
aborting when `HOME` is also unset. -/
def resolveMoveHome (w : World) (test_mode : Option TestMode) : Out String :=
  match test_mode with
  | some tm =>
    match alget w.env "TEST_MOVE_HOME" with
    | none => Out.panic "called unwrap on an Err value"
    | some base => Out.ok (if tm.test_path = "" then base else base ++ tm.test_path)
  | none =>
    match alget w.env "MOVE_HOME" with
    | some mh => Out.ok mh
    | none =>
      match alget w.env "HOME" with
      | some home => Out.ok (home ++ "/.move")
      | none => Out.panic "env var HOME must be set"

/-- `set_permissions` (cli.rs lines 110-124): on Unix, `metadata` and
`File::set_permissions` may fail (the question-mark operator propagates an
error), otherwise the file's mode is set; on non-Unix platforms the function
body is `Ok(())`. -/
def set_permissions (unix : Bool) (w : World) (path : String) (mode : Nat) : Out Unit × World :=
  if unix then
    if w.permErr.contains path then (Out.err "could not set permissions", w)
    else (Out.ok (), setMode w path mode)
  else (Out.ok (), w)

/-- `save_credential` (cli.rs lines 53-108): resolve the home directory,
create it, create an empty credential file when none exists, read and parse
the file, merge the token, write the document back (`expect` aborts on a
write failure), re-open the file and restrict its permissions to 0o600. -/
def save_credential (unix : Bool) (token : String) (test_mode : Option TestMode)
    (w0 : World) : Out Unit × World :=
  match resolveMoveHome w0 test_mode with
  | Out.err e => (Out.err e, w0)
  | Out.panic e => (Out.panic e, w0)
  | Out.ok move_home =>
    if w0.mkdirErr.contains move_home then (Out.err "create_dir_all failed", w0) else
    let w1 := addDir w0 move_home
    let credential_path := move_home ++ "/credential.toml"
    match (if (alget w1.files credential_path).isSome then Out.ok w1
           else if w1.createErr.contains credential_path then
             Out.err "could not create credential file"
           else Out.ok (putFile w1 credential_path
                          { data := TomlText.empty, mode := w1.createMode })) with
    | Out.err e => (Out.err e, w1)
    | Out.panic e => (Out.panic e, w1)
    | Out.ok w2 =>
      match readToString w2 credential_path with
      | Except.error e => (Out.err ("Error reading input: " ++ e), w2)
      | Except.ok old_contents =>
        match parseToml old_contents with
        | Except.error e => (Out.err e, w2)
        | Except.ok toml =>
          match asTable toml with
          | none => (Out.panic "called unwrap on a None value", w2)
          | some top =>
            match mergeToken top token with
            | Out.err e => (Out.err e, w2)
            | Out.panic e => (Out.panic e, w2)
            | Out.ok merged =>
              if w2.writeErr.contains credential_path then
                (Out.panic "Unable to write file", w2)
              else
                let w3 := writeFs w2 credential_path (TomlText.render merged)
                if w3.openErr.contains credential_path then
                  (Out.err "could not open credential file", w3)
                else set_permissions unix w3 credential_path 0o600

/-- Strip one trailing newline, then one trailing carriage return, from a
line buffer (cli.rs lines 28-33; Rust strings are embedded as `List Char`). -/
def trimEol (line : List Char) : List Char :=
  let l1 :=
    match line.getLast? with
    | some c => if c = '\n' then line.dropLast else line
    | none => line
  match l1.getLast? with
  | some c => if c = '\r' then l1.dropLast else l1
  | none => l1

/-- The token prompt loop of `handle_login_commands` (cli.rs lines 24-43).
The input stream is a list of `read_line` outcomes, each appending a chunk
to the persistent buffer `buf` (which the source never clears; it is empty
whenever the loop repeats).  The first component collects the retry messages
printed; the second is `some` of the loop's outcome, or `none` when the
supplied input outcomes are exhausted with the loop still running. -/
def promptLoop : List Char → List (Except String (List Char)) →
    List String × Option (Except String (List Char))
  | _, [] => ([], none)
  | _, Except.error e :: _ =>
    ([], some (Except.error ("Error reading file: " ++ e)))
  | buf, Except.ok chunk :: rest =>
    let line := trimEol (buf ++ chunk)
    if line = [] then
      let r := promptLoop line rest
      ("Invalid API Token. Try again!" :: r.1, r.2)
    else ([], some (Except.ok line))

/-- A base world for concrete instantiations: `MOVE_HOME` is set to `/h`,
the filesystem is empty, fresh files get mode `0o644`, no primitive fails. -/
def baseW : World :=
  { env := [("MOVE_HOME", "/h")], dirs := [], files := [], createMode := 0o644,
    readErr := [], mkdirErr := [], createErr := [], writeErr := [], openErr := [],
    permErr := [] }

/-- `fs::read_to_string` result of the credential file before a run, with a
missing file standing for the empty text it is created with. -/
def fileData (w : World) (p : String) : TomlText :=
  match alget w.files p with
  | some f => f.data
  | none => TomlText.empty

def wC3 : World :=
  { baseW with
      files := [("/h/credential.toml", { data := TomlText.empty, mode := 420 })],
      readErr := [("/h/credential.toml", "Permission denied (os error 13)")] }

def wC4 : World :=
  { baseW with files := [("/h/credential.toml", { data := TomlText.empty, mode := 420 })] }

def wC9 : World :=
  { baseW with
      files := [("/h/credential.toml",
        { data := TomlText.render [("registry", Toml.str "x")], mode := 420 })] }

def wC9b : World :=
  { baseW with
      files := [("/h/credential.toml",
        { data := TomlText.render [("registry", Toml.table [("token", Toml.str "old")])],
          mode := 420 })] }

def wHome : World := { baseW with env := [("HOME", "/home/u")] }

def wTest : World := { baseW with env := [("TEST_MOVE_HOME", "/t")] }

def wMk : World := { baseW with mkdirErr := ["/h"] }

def wC6 : World := (save_credential true "t" none baseW).2

def wC2 : World := { baseW with openErr := ["/h/credential.toml"] }

def wC5 : World :=
  { baseW with
      files := [("/h/credential.toml",
        { data := TomlText.render [("registry", Toml.table [("token", Toml.str "old")])],
          mode := 420 })] }

theorem alget_alset_self {α : Type} (m : List (String × α)) (k : String) (v : α) :
    alget (alset m k v) k = some v := by
  induction m with
  | nil => simp [alget, alset]
  | cons hd t ih =>
    obtain ⟨ka, va⟩ := hd
    by_cases hk : ka = k <;> simp [alget, alset, hk, ih]

theorem alget_alset_ne {α : Type} (m : List (String × α)) (k j : String) (v : α)
    (h : j ≠ k) : alget (alset m k v) j = alget m j := by
  induction m with
  | nil => simp [alget, alset, Ne.symm h]
  | cons hd t ih =>
    obtain ⟨ka, va⟩ := hd
    by_cases hk : ka = k
    · subst hk
      simp [alget, alset, Ne.symm h]
    · simp [alget, alset, hk, ih]

theorem alset_alset {α : Type} (m : List (String × α)) (k : String) (v v2 : α) :
    alset (alset m k v) k v2 = alset m k v2 := by
  induction m with
  | nil => simp [alset]
  | cons hd t ih =>
    obtain ⟨ka, va⟩ := hd
    by_cases hk : ka = k <;> simp [alset, hk, ih]

theorem alset_self {α : Type} (m : List (String × α)) (k : String) (v : α)
    (h : alget m k = some v) : alset m k v = m := by
  induction m with
  | nil => simp [alget] at h
  | cons hd t ih =>
    obtain ⟨ka, va⟩ := hd
    by_cases hk : ka = k
    · subst hk
      simp [alget] at h
      simp [alset, h]
    · simp [alget, hk] at h
      simp [alset, hk, ih h]

theorem addDir_contains (w : World) (d : String) :
    (addDir w d).dirs.contains d = true := by
  unfold addDir
  by_cases h : w.dirs.contains d = true <;> simp_all

theorem resolveMoveHome_env (w w2 : World) (tm : Option TestMode)
    (h : w2.env = w.env) : resolveMoveHome w2 tm = resolveMoveHome w tm := by
  unfold resolveMoveHome
  rw [h]

theorem writeFs_lookup (w : World) (p : String) (d : TomlText) :
    alget (writeFs w p d).files p =
      some { data := d,
             mode := match alget w.files p with
                     | some f => f.mode
                     | none => w.createMode } := by
  unfold writeFs
  cases h : alget w.files p <;> simp [h, alget_alset_self]

theorem setMode_lookup (w : World) (p : String) (m : Nat) (f : FsFile)
    (h : alget w.files p = some f) :
    alget (setMode w p m).files p = some { data := f.data, mode := m } := by
  unfold setMode
  simp [h, alget_alset_self]

theorem mergeToken_idem (top merged : List (String × Toml)) (token : String)
    (h : mergeToken top token = Out.ok merged) :
    mergeToken merged token = Out.ok merged := by
  unfold mergeToken at h ⊢
  cases hreg : alget top "registry" with
  | none =>
    rw [hreg] at h
    cases h
    rw [alget_alset_self]
    simp [asTable, alset, alset_alset]
  | some v =>
    rw [hreg] at h
    cases v <;> simp [asTable] at h
    next rt =>
      cases h
      rw [alget_alset_self]
      simp [asTable, alset_alset]

/-- A successful run of `save_credential` on a world whose credential file
exists with contents `fd`: the file ends up holding the rendering of the
merged document, with mode `0o600` on Unix and its previous mode elsewhere. -/
theorem save_run_file (unix : Bool) (token : String) (tm : Option TestMode)
    (w : World) (mh : String) (fd : TomlText) (m0 : Nat)
    (top merged : List (String × Toml))
    (hres : resolveMoveHome w tm = Out.ok mh)
    (hmk : mh ∉ w.mkdirErr)
    (hfile : alget w.files (mh ++ "/credential.toml") = some { data := fd, mode := m0 })
    (hrd : alget w.readErr (mh ++ "/credential.toml") = none)
    (hparse : parseToml fd = Except.ok (Toml.table top))
    (hmg : mergeToken top token = Out.ok merged)
    (hwr : mh ++ "/credential.toml" ∉ w.writeErr)
    (hop : mh ++ "/credential.toml" ∉ w.openErr)
    (hpm : mh ++ "/credential.toml" ∉ w.permErr) :
    save_credential unix token tm w =
      (Out.ok (),
       { addDir w mh with
           files := alset w.files (mh ++ "/credential.toml")
             { data := TomlText.render merged,
               mode := if unix then 0o600 else m0 } }) := by
  cases unix <;>
    simp [save_credential, hres, hmk, addDir, readToString, hrd, hfile, hparse,
      asTable, hmg, hwr, writeFs, hop, set_permissions, hpm, setMode,
      alget_alset_self, alset_alset]

/-- A successful run of `save_credential` on a world with no credential file:
the file is created and ends up holding the rendering of the merged empty
document, with mode `0o600` on Unix and the creation mode elsewhere. -/
theorem save_run_missing (unix : Bool) (token : String) (tm : Option TestMode)
    (w : World) (mh : String)
    (hres : resolveMoveHome w tm = Out.ok mh)
    (hmk : mh ∉ w.mkdirErr)
    (hnone : alget w.files (mh ++ "/credential.toml") = none)
    (hcr : mh ++ "/credential.toml" ∉ w.createErr)
    (hrd : alget w.readErr (mh ++ "/credential.toml") = none)
    (hwr : mh ++ "/credential.toml" ∉ w.writeErr)
    (hop : mh ++ "/credential.toml" ∉ w.openErr)
    (hpm : mh ++ "/credential.toml" ∉ w.permErr) :
    save_credential unix token tm w =
      (Out.ok (),
       { addDir w mh with
           files := alset w.files (mh ++ "/credential.toml")
             { data := TomlText.render [("registry", Toml.table [("token", Toml.str token)])],
               mode := if unix then 0o600 else w.createMode } }) := by
  cases unix <;>
    simp [save_credential, hres, hmk, addDir, putFile, readToString, hrd, hnone, hcr,
      parseToml, asTable, mergeToken, alget, alset, hwr, writeFs, hop,
      set_permissions, hpm, setMode, alget_alset_self, alset_alset]

/-- C1: for every parsed credential document, if the "registry" entry is a
table, `save_credential`'s merge step sets its "token" field to the new
token (overwriting any existing value, including an empty string) and leaves
every other field of that table and every other top-level entry unmodified;
if no "registry" entry exists, it inserts one containing only "token". -/
theorem claim_C1_merge_semantics (top : List (String × Toml)) (token : String) :
    (∀ rt, alget top "registry" = some (Toml.table rt) →
      mergeToken top token =
        Out.ok (alset top "registry" (Toml.table (alset rt "token" (Toml.str token)))) ∧
      alget (alset rt "token" (Toml.str token)) "token" = some (Toml.str token) ∧
      (∀ k, k ≠ "token" → alget (alset rt "token" (Toml.str token)) k = alget rt k) ∧
      (∀ k, k ≠ "registry" →
        alget (alset top "registry" (Toml.table (alset rt "token" (Toml.str token)))) k =
          alget top k)) ∧
    (alget top "registry" = none →
      mergeToken top token =
        Out.ok (alset top "registry" (Toml.table [("token", Toml.str token)])) ∧
      alget (alset top "registry" (Toml.table [("token", Toml.str token)])) "registry" =
        some (Toml.table [("token", Toml.str token)]) ∧
      (∀ k, k ≠ "registry" →
        alget (alset top "registry" (Toml.table [("token", Toml.str token)])) k =
          alget top k)) := by
  constructor
  · intro rt hreg
    refine ⟨?_, alget_alset_self _ _ _, ?_, ?_⟩
    · unfold mergeToken
      rw [hreg]
      simp [asTable]
    · intro k hk
      exact alget_alset_ne _ _ _ _ hk
    · intro k hk
      exact alget_alset_ne _ _ _ _ hk
  · intro hreg
    refine ⟨?_, alget_alset_self _ _ _, ?_⟩
    · unfold mergeToken
      rw [hreg]
    · intro k hk
      exact alget_alset_ne _ _ _ _ hk

theorem claim_C1_witness :
    (mergeToken
        [("registry", Toml.table [("token", Toml.str "old"), ("version", Toml.str "0.0.0")])]
        "new" =
      Out.ok (alset
        [("registry", Toml.table [("token", Toml.str "old"), ("version", Toml.str "0.0.0")])]
        "registry"
        (Toml.table (alset [("token", Toml.str "old"), ("version", Toml.str "0.0.0")]
          "token" (Toml.str "new")))) ∧
      alget (alset [("token", Toml.str "old"), ("version", Toml.str "0.0.0")]
          "token" (Toml.str "new")) "token" = some (Toml.str "new") ∧
      (∀ k, k ≠ "token" →
        alget (alset [("token", Toml.str "old"), ("version", Toml.str "0.0.0")]
          "token" (Toml.str "new")) k =
        alget [("token", Toml.str "old"), ("version", Toml.str "0.0.0")] k) ∧
      (∀ k, k ≠ "registry" →
        alget (alset
          [("registry", Toml.table [("token", Toml.str "old"), ("version", Toml.str "0.0.0")])]
          "registry"
          (Toml.table (alset [("token", Toml.str "old"), ("version", Toml.str "0.0.0")]
            "token" (Toml.str "new")))) k =
        alget [("registry",
          Toml.table [("token", Toml.str "old"), ("version", Toml.str "0.0.0")])] k)) ∧
    (mergeToken [] "t" =
      Out.ok (alset [] "registry" (Toml.table [("token", Toml.str "t")])) ∧
      alget (alset [] "registry" (Toml.table [("token", Toml.str "t")])) "registry" =
        some (Toml.table [("token", Toml.str "t")]) ∧
      (∀ k, k ≠ "registry" →
        alget (alset [] "registry" (Toml.table [("token", Toml.str "t")])) k =
          alget ([] : List (String × Toml)) k)) :=
  ⟨(claim_C1_merge_semantics _ "new").1
      [("token", Toml.str "old"), ("version", Toml.str "0.0.0")] rfl,
   (claim_C1_merge_semantics [] "t").2 rfl⟩

/-- C3: when the credential file exists but its contents cannot be read, the
run fails with "Error reading input: " followed by the OS error text, and the
filesystem is left unchanged apart from the directory creation. -/
theorem claim_C3_read_error (unix : Bool) (token : String) (tm : Option TestMode)
    (w : World) (mh oserr : String)
    (hres : resolveMoveHome w tm = Out.ok mh)
    (hmk : mh ∉ w.mkdirErr)
    (hex : (alget w.files (mh ++ "/credential.toml")).isSome = true)
    (hrd : alget w.readErr (mh ++ "/credential.toml") = some oserr) :
    save_credential unix token tm w =
      (Out.err ("Error reading input: " ++ oserr), addDir w mh) := by
  simp [save_credential, hres, hmk, addDir, readToString, hex, hrd]

theorem claim_C3_witness :
    save_credential true "tok" none wC3 =
      (Out.err ("Error reading input: " ++ "Permission denied (os error 13)"),
       addDir wC3 "/h") :=
  claim_C3_read_error true "tok" none wC3 "/h" "Permission denied (os error 13)"
    rfl (by decide) rfl rfl

/-- C4: with no credential file, or with a zero-byte credential file, and no
failing primitive, `save_credential` succeeds and the file ends up holding a
document whose only content is a "registry" table holding only "token". -/
theorem claim_C4_bootstrap (unix : Bool) (token : String) (tm : Option TestMode)
    (w : World) (mh : String)
    (hres : resolveMoveHome w tm = Out.ok mh)
    (hmk : mh ∉ w.mkdirErr)
    (hcr : mh ++ "/credential.toml" ∉ w.createErr)
    (hrd : alget w.readErr (mh ++ "/credential.toml") = none)
    (hwr : mh ++ "/credential.toml" ∉ w.writeErr)
    (hop : mh ++ "/credential.toml" ∉ w.openErr)
    (hpm : mh ++ "/credential.toml" ∉ w.permErr) :
    (alget w.files (mh ++ "/credential.toml") = none →
      (save_credential unix token tm w).1 = Out.ok () ∧
      ∃ f, alget (save_credential unix token tm w).2.files (mh ++ "/credential.toml") =
          some f ∧
        f.data = TomlText.render [("registry", Toml.table [("token", Toml.str token)])]) ∧
    (∀ m0, alget w.files (mh ++ "/credential.toml") =
        some { data := TomlText.empty, mode := m0 } →
      (save_credential unix token tm w).1 = Out.ok () ∧
      ∃ f, alget (save_credential unix token tm w).2.files (mh ++ "/credential.toml") =
          some f ∧
        f.data = TomlText.render [("registry", Toml.table [("token", Toml.str token)])]) := by
  constructor
  · intro hnone
    rw [save_run_missing unix token tm w mh hres hmk hnone hcr hrd hwr hop hpm]
    exact ⟨rfl, _, alget_alset_self _ _ _, rfl⟩
  · intro m0 hempty
    have hmg : mergeToken [] token =
        Out.ok [("registry", Toml.table [("token", Toml.str token)])] := by
      simp [mergeToken, alget, alset]
    rw [save_run_file unix token tm w mh TomlText.empty m0 [] _ hres hmk hempty hrd rfl
      hmg hwr hop hpm]
    exact ⟨rfl, _, alget_alset_self _ _ _, rfl⟩

theorem claim_C4_witness :
    ((save_credential true "t" none baseW).1 = Out.ok () ∧
      ∃ f, alget (save_credential true "t" none baseW).2.files ("/h" ++ "/credential.toml") =
          some f ∧
        f.data = TomlText.render [("registry", Toml.table [("token", Toml.str "t")])]) ∧
    ((save_credential true "t" none wC4).1 = Out.ok () ∧
      ∃ f, alget (save_credential true "t" none wC4).2.files ("/h" ++ "/credential.toml") =
          some f ∧
        f.data = TomlText.render [("registry", Toml.table [("token", Toml.str "t")])]) :=
  ⟨(claim_C4_bootstrap true "t" none baseW "/h" rfl (by decide) (by decide) rfl (by decide)
      (by decide) (by decide)).1 rfl,
   (claim_C4_bootstrap true "t" none wC4 "/h" rfl (by decide) (by decide) rfl (by decide)
      (by decide) (by decide)).2 420 rfl⟩

/-- C9: if the parsed document binds "registry" to a non-table value, the
merge step aborts on the `as_table_mut` unwrap instead of returning a
`Result` error; the unwraps are safe whenever any "registry" entry is a
table. -/
theorem claim_C9_registry_not_table (unix : Bool) (token : String)
    (tm : Option TestMode) (w : World) (mh : String) (top : List (String × Toml))
    (m0 : Nat)
    (hres : resolveMoveHome w tm = Out.ok mh)
    (hmk : mh ∉ w.mkdirErr)
    (hfile : alget w.files (mh ++ "/credential.toml") =
      some { data := TomlText.render top, mode := m0 })
    (hrd : alget w.readErr (mh ++ "/credential.toml") = none) :
    (∀ v, alget top "registry" = some v → asTable v = none →
      mergeToken top token = Out.panic "called unwrap on a None value" ∧
      save_credential unix token tm w =
        (Out.panic "called unwrap on a None value", addDir w mh)) ∧
    (∀ rt, alget top "registry" = some (Toml.table rt) →
      ∃ merged, mergeToken top token = Out.ok merged) := by
  constructor
  · intro v hreg hnt
    have hmg : mergeToken top token = Out.panic "called unwrap on a None value" := by
      unfold mergeToken
      rw [hreg]
      simp [hnt]
    refine ⟨hmg, ?_⟩
    simp [save_credential, hres, hmk, addDir, readToString, hrd, hfile, parseToml,
      asTable, hmg]
  · intro rt hreg
    refine ⟨alset top "registry" (Toml.table (alset rt "token" (Toml.str token))), ?_⟩
    unfold mergeToken
    rw [hreg]
    simp [asTable]

theorem claim_C9_witness :
    (mergeToken [("registry", Toml.str "x")] "t" =
        Out.panic "called unwrap on a None value" ∧
      save_credential true "t" none wC9 =
        (Out.panic "called unwrap on a None value", addDir wC9 "/h")) ∧
    (∃ merged, mergeToken [("registry", Toml.table [("token", Toml.str "old")])] "t" =
      Out.ok merged) :=
  ⟨(claim_C9_registry_not_table true "t" none wC9 "/h" [("registry", Toml.str "x")]
      420 rfl (by decide) rfl rfl).1 (Toml.str "x") rfl rfl,
   (claim_C9_registry_not_table true "t" none wC9b "/h"
      [("registry", Toml.table [("token", Toml.str "old")])]
      420 rfl (by decide) rfl rfl).2 [("token", Toml.str "old")] rfl⟩

/-- C10: at end-of-file every read succeeds leaving the empty buffer
unchanged, the retry message is printed, and the prompt loop repeats without
ever terminating or reporting an error. -/
theorem claim_C10_eof_never_terminates (n : Nat) :
    promptLoop [] (List.replicate n (Except.ok [])) =
      (List.replicate n "Invalid API Token. Try again!", none) := by
  induction n with
  | zero => rfl
  | succ m ih => simp [List.replicate_succ, promptLoop, trimEol, ih]

theorem claim_C10_witness :
    promptLoop [] (List.replicate 3 (Except.ok [])) =
      (List.replicate 3 "Invalid API Token. Try again!", none) :=
  claim_C10_eof_never_terminates 3

theorem trimEol_append_nl (s : List Char) :
    trimEol (s ++ ['\n']) = if s.getLast? = some '\r' then s.dropLast else s := by
  simp only [trimEol, List.getLast?_concat, List.dropLast_concat]
  cases hg : s.getLast? with
  | none => simp [hg]
  | some c => by_cases hc : c = '\r' <;> simp [hg, hc]

/-- C7: the token prompt reads a line, strips one trailing newline and then
one trailing carriage return, prints the retry message and reads again when
the stripped line is empty, returns only a non-empty line, and a read error
aborts at once with "Error reading file: " plus the cause, without retrying. -/
theorem claim_C7_prompt_contract :
    (∀ e rest, promptLoop [] (Except.error e :: rest) =
      ([], some (Except.error ("Error reading file: " ++ e)))) ∧
    (∀ chunk rest, trimEol chunk = [] →
      promptLoop [] (Except.ok chunk :: rest) =
        ("Invalid API Token. Try again!" :: (promptLoop [] rest).1,
         (promptLoop [] rest).2)) ∧
    (∀ chunk rest, trimEol chunk ≠ [] →
      promptLoop [] (Except.ok chunk :: rest) =
        ([], some (Except.ok (trimEol chunk)))) ∧
    (∀ buf input s, (promptLoop buf input).2 = some (Except.ok s) → s ≠ []) ∧
    (∀ s : List Char, trimEol (s ++ ['\r', '\n']) = s) ∧
    (∀ s : List Char, s.getLast? ≠ some '\r' → trimEol (s ++ ['\n']) = s) := by
  refine ⟨fun e rest => rfl, ?_, ?_, ?_, ?_, ?_⟩
  · intro chunk rest h
    simp [promptLoop, h]
  · intro chunk rest h
    simp [promptLoop, h]
  · intro buf input s
    induction input generalizing buf with
    | nil => intro h; simp [promptLoop] at h
    | cons hd rest ih =>
      cases hd with
      | error e => intro h; simp [promptLoop] at h
      | ok chunk =>
        intro h
        simp only [promptLoop] at h
        by_cases hl : trimEol (buf ++ chunk) = []
        · rw [if_pos hl] at h
          exact ih _ h
        · rw [if_neg hl] at h
          simp at h
          subst h
          exact hl
  · intro s
    have e1 : s ++ ['\r', '\n'] = (s ++ ['\r']) ++ ['\n'] := by simp
    rw [e1, trimEol_append_nl]
    simp [List.getLast?_concat, List.dropLast_concat]
  · intro s h
    rw [trimEol_append_nl]
    simp [h]

theorem claim_C7_witness :
    promptLoop [] [Except.error "pipe"] =
      ([], some (Except.error ("Error reading file: " ++ "pipe"))) ∧
    promptLoop [] [Except.ok ['\n'], Except.ok ['a', '\n']] =
      ("Invalid API Token. Try again!" :: (promptLoop [] [Except.ok ['a', '\n']]).1,
       (promptLoop [] [Except.ok ['a', '\n']]).2) ∧
    promptLoop [] [Except.ok ['a', '\r', '\n']] =
      ([], some (Except.ok (trimEol ['a', '\r', '\n']))) ∧
    (['a'] : List Char) ≠ [] ∧
    trimEol (['a'] ++ ['\r', '\n']) = ['a'] ∧
    trimEol (['a'] ++ ['\n']) = ['a'] :=
  ⟨claim_C7_prompt_contract.1 "pipe" [Except.ok ['a', '\n']],
   claim_C7_prompt_contract.2.1 ['\n'] [Except.ok ['a', '\n']] rfl,
   claim_C7_prompt_contract.2.2.1 ['a', '\r', '\n'] [] (by decide),
   claim_C7_prompt_contract.2.2.2.1 [] [Except.ok ['a', '\n']] ['a'] rfl,
   claim_C7_prompt_contract.2.2.2.2.1 ['a'],
   claim_C7_prompt_contract.2.2.2.2.2 ['a'] (by decide)⟩

theorem mem_addDir (w : World) (d : String) : d ∈ (addDir w d).dirs := by
  unfold addDir
  by_cases h : d ∈ w.dirs <;> simp [h]

theorem addDir_of_mem (w : World) (d : String) (h : d ∈ w.dirs) : addDir w d = w := by
  unfold addDir
  simp [h]

/-- The directory set of the world after any `save_credential` run whose
directory creation succeeded is exactly the one produced by the directory
creation step. -/
theorem save_dirs (unix : Bool) (token : String) (tm : Option TestMode) (w : World)
    (mh : String) (hres : resolveMoveHome w tm = Out.ok mh) (hmk : mh ∉ w.mkdirErr) :
    (save_credential unix token tm w).2.dirs = (addDir w mh).dirs := by
  simp only [save_credential, hres]
  rw [if_neg (by simp [hmk])]
  split
  · rfl
  · rfl
  next w2 heq =>
    have hw2 : w2.dirs = (addDir w mh).dirs := by
      split at heq
      next h1 =>
        cases heq
        rfl
      next h1 =>
        split at heq
        next h2 => cases heq
        next h2 =>
          cases heq
          rfl
    simp only [set_permissions]
    repeat' split
    all_goals simp_all [setMode, writeFs, putFile, addDir]

/-- C8: home-directory resolution takes exactly one branch per call: with a
test override it reads TEST_MOVE_HOME (aborting when unset) and appends the
suffix exactly when it is non-empty; without one it reads MOVE_HOME, falling
back to HOME ++ "/.move"; the directory is recorded as created in any world
reachable past the creation step, and a creation failure stops the run with
the world untouched, before any file access. -/
theorem claim_C8_home_resolution :
    (∀ w t base, alget w.env "TEST_MOVE_HOME" = some base →
      resolveMoveHome w (some t) =
        Out.ok (if t.test_path = "" then base else base ++ t.test_path)) ∧
    (∀ w t, alget w.env "TEST_MOVE_HOME" = none →
      resolveMoveHome w (some t) = Out.panic "called unwrap on an Err value") ∧
    (∀ w h, alget w.env "MOVE_HOME" = some h → resolveMoveHome w none = Out.ok h) ∧
    (∀ w hh, alget w.env "MOVE_HOME" = none → alget w.env "HOME" = some hh →
      resolveMoveHome w none = Out.ok (hh ++ "/.move")) ∧
    (∀ unix token tm w mh, resolveMoveHome w tm = Out.ok mh → mh ∉ w.mkdirErr →
      mh ∈ (save_credential unix token tm w).2.dirs) ∧
    (∀ unix token tm w mh, resolveMoveHome w tm = Out.ok mh → mh ∈ w.mkdirErr →
      save_credential unix token tm w = (Out.err "create_dir_all failed", w)) := by
  refine ⟨?_, ?_, ?_, ?_, ?_, ?_⟩
  · intro w t base h
    simp [resolveMoveHome, h]
  · intro w t h
    simp [resolveMoveHome, h]
  · intro w h hm
    simp [resolveMoveHome, hm]
  · intro w hh hm hh2
    simp [resolveMoveHome, hm, hh2]
  · intro unix token tm w mh hres hmk
    rw [save_dirs unix token tm w mh hres hmk]
    exact mem_addDir w mh
  · intro unix token tm w mh hres hmk
    simp only [save_credential, hres]
    rw [if_pos (by simp [hmk])]

theorem claim_C8_witness :
    resolveMoveHome wTest (some { test_path := "/s" }) =
      Out.ok (if ("/s" : String) = "" then "/t" else "/t" ++ "/s") ∧
    resolveMoveHome baseW (some { test_path := "/s" }) =
      Out.panic "called unwrap on an Err value" ∧
    resolveMoveHome baseW none = Out.ok "/h" ∧
    resolveMoveHome wHome none = Out.ok ("/home/u" ++ "/.move") ∧
    "/h" ∈ (save_credential true "t" none baseW).2.dirs ∧
    save_credential true "t" none wMk = (Out.err "create_dir_all failed", wMk) :=
  ⟨claim_C8_home_resolution.1 wTest { test_path := "/s" } "/t" rfl,
   claim_C8_home_resolution.2.1 baseW { test_path := "/s" } rfl,
   claim_C8_home_resolution.2.2.1 baseW "/h" rfl,
   claim_C8_home_resolution.2.2.2.1 wHome "/home/u" rfl rfl,
   claim_C8_home_resolution.2.2.2.2.1 true "t" none baseW "/h" rfl (by decide),
   claim_C8_home_resolution.2.2.2.2.2 true "t" none wMk "/h" rfl (by decide)⟩

/-- C6: after every successful `save_credential` run on a Unix platform the
credential file's permission bits are 0o600, regardless of their prior
value; on non-Unix platforms the permission step leaves the world
untouched. -/
theorem claim_C6_permissions (token : String) (tm : Option TestMode) (w w2 : World)
    (h : save_credential true token tm w = (Out.ok (), w2)) :
    (∃ mh f, resolveMoveHome w tm = Out.ok mh ∧
      alget w2.files (mh ++ "/credential.toml") = some f ∧ f.mode = 0o600) ∧
    (∀ wa path mode, set_permissions false wa path mode = (Out.ok (), wa)) := by
  refine ⟨?_, fun wa path mode => rfl⟩
  simp only [save_credential, set_permissions] at h
  repeat' split at h
  all_goals simp_all
  subst h
  exact ⟨_, setMode_lookup _ _ _ _ (writeFs_lookup _ _ _), rfl⟩

theorem claim_C6_witness :
    (∃ mh f, resolveMoveHome baseW none = Out.ok mh ∧
      alget wC6.files (mh ++ "/credential.toml") = some f ∧ f.mode = 0o600) ∧
    (∀ wa path mode, set_permissions false wa path mode = (Out.ok (), wa)) :=
  claim_C6_permissions "t" none baseW wC6 rfl

/-- C2 (counterexample): with no credential file present and the re-open
step failing, the run reports an error even though the file was newly
created and fully rewritten with the token, with its permission bits left
at the creation mode rather than restricted. -/
theorem claim_C2_counterexample :
    (save_credential true "t" none wC2).1 = Out.err "could not open credential file" ∧
    alget wC2.files "/h/credential.toml" = none ∧
    alget (save_credential true "t" none wC2).2.files "/h/credential.toml" =
      some { data := TomlText.render [("registry", Toml.table [("token", Toml.str "t")])],
             mode := 420 } :=
  ⟨rfl, rfl, rfl⟩

/-- C2 (amended): a `save_credential` run either leaves the credential file
unchanged, or fails after having created the empty file when none existed,
or leaves the file holding the merged document - with mode 0o600 exactly
when the run succeeded on Unix, and with the prior permission bits when the
re-open or the permission step failed after the write; a later failure can
therefore leave a newly created or fully rewritten file behind. -/
theorem claim_C2_last_completed_step (unix : Bool) (token : String)
    (tm : Option TestMode) (w : World) (mh : String)
    (hres : resolveMoveHome w tm = Out.ok mh) :
    alget (save_credential unix token tm w).2.files (mh ++ "/credential.toml") =
      alget w.files (mh ++ "/credential.toml")
    ∨ (alget w.files (mh ++ "/credential.toml") = none ∧
       (save_credential unix token tm w).1 ≠ Out.ok () ∧
       alget (save_credential unix token tm w).2.files (mh ++ "/credential.toml") =
         some { data := TomlText.empty, mode := w.createMode })
    ∨ (∃ top merged m,
       parseToml (fileData w (mh ++ "/credential.toml")) = Except.ok (Toml.table top) ∧
       mergeToken top token = Out.ok merged ∧
       alget (save_credential unix token tm w).2.files (mh ++ "/credential.toml") =
         some { data := TomlText.render merged, mode := m } ∧
       ((save_credential unix token tm w).1 = Out.ok () → unix = true → m = 0o600)) := by
  by_cases hmk : mh ∈ w.mkdirErr
  · left
    simp [save_credential, hres, hmk]
  · cases hfl : alget w.files (mh ++ "/credential.toml") with
    | none =>
      by_cases hcr : mh ++ "/credential.toml" ∈ w.createErr
      · left
        simp [save_credential, hres, hmk, addDir, hfl, hcr]
      · have hmg0 : mergeToken [] token =
            Out.ok [("registry", Toml.table [("token", Toml.str token)])] := by
          simp [mergeToken, alget, alset]
        cases hrd : alget w.readErr (mh ++ "/credential.toml") with
        | some e =>
          right; left
          refine ⟨rfl, ?_, ?_⟩ <;>
            simp [save_credential, hres, hmk, addDir, putFile, readToString, hfl, hcr,
              hrd, alget_alset_self]
        | none =>
          by_cases hwr : mh ++ "/credential.toml" ∈ w.writeErr
          · right; left
            refine ⟨rfl, ?_, ?_⟩ <;>
              simp [save_credential, hres, hmk, addDir, putFile, readToString, parseToml,
                asTable, hfl, hcr, hrd, hwr, hmg0, alget_alset_self]
          · by_cases hop : mh ++ "/credential.toml" ∈ w.openErr
            · right; right
              refine ⟨[], _, w.createMode, by simp [fileData, hfl, parseToml], hmg0, ?_, ?_⟩ <;>
                simp [save_credential, hres, hmk, addDir, putFile, readToString, parseToml,
                  asTable, writeFs, hfl, hcr, hrd, hwr, hop, hmg0, alget_alset_self, alset_alset]
            · cases unix with
              | false =>
                right; right
                refine ⟨[], _, w.createMode, by simp [fileData, hfl, parseToml], hmg0, ?_, ?_⟩
                · simp [save_credential, hres, hmk, addDir, putFile, readToString, parseToml,
                    asTable, writeFs, set_permissions, hfl, hcr, hrd, hwr, hop, hmg0,
                    alget_alset_self, alset_alset]
                · intro _ hu
                  cases hu
              | true =>
                by_cases hpm : mh ++ "/credential.toml" ∈ w.permErr
                · right; right
                  refine ⟨[], _, w.createMode, by simp [fileData, hfl, parseToml], hmg0, ?_, ?_⟩ <;>
                    simp [save_credential, hres, hmk, addDir, putFile, readToString, parseToml,
                      asTable, writeFs, set_permissions, hfl, hcr, hrd, hwr, hop, hpm, hmg0,
                      alget_alset_self, alset_alset]
                · right; right
                  refine ⟨[], _, 0o600, by simp [fileData, hfl, parseToml], hmg0, ?_,
                      fun _ _ => rfl⟩
                  simp [save_credential, hres, hmk, addDir, putFile, readToString, parseToml,
                    asTable, writeFs, setMode, set_permissions, hfl, hcr, hrd, hwr, hop, hpm,
                    hmg0, alget_alset_self, alset_alset]
    | some f =>
      obtain ⟨fd, fm⟩ := f
      cases hrd : alget w.readErr (mh ++ "/credential.toml") with
      | some e =>
        left
        simp [save_credential, hres, hmk, addDir, readToString, hfl, hrd]
      | none =>
        cases hpt : parseToml fd with
        | error e =>
          left
          simp [save_credential, hres, hmk, addDir, readToString, hfl, hrd, hpt]
        | ok toml =>
          cases toml with
          | str a =>
            left
            simp [save_credential, hres, hmk, addDir, readToString, hfl, hrd, hpt, asTable]
          | int a =>
            left
            simp [save_credential, hres, hmk, addDir, readToString, hfl, hrd, hpt, asTable]
          | table top =>
            cases hmg : mergeToken top token with
            | err e =>
              left
              simp [save_credential, hres, hmk, addDir, readToString, hfl, hrd, hpt, asTable, hmg]
            | panic e =>
              left
              simp [save_credential, hres, hmk, addDir, readToString, hfl, hrd, hpt, asTable, hmg]
            | ok merged =>
              by_cases hwr : mh ++ "/credential.toml" ∈ w.writeErr
              · left
                simp [save_credential, hres, hmk, addDir, readToString, hfl, hrd, hpt,
                  asTable, hmg, hwr]
              · have hparse2 : parseToml (fileData w (mh ++ "/credential.toml")) =
                    Except.ok (Toml.table top) := by
                  simp [fileData, hfl, hpt]
                by_cases hop : mh ++ "/credential.toml" ∈ w.openErr
                · right; right
                  refine ⟨top, merged, fm, hparse2, hmg, ?_, ?_⟩ <;>
                    simp [save_credential, hres, hmk, addDir, readToString, writeFs, hfl,
                      hrd, hpt, asTable, hmg, hwr, hop, alget_alset_self]
                · cases unix with
                  | false =>
                    right; right
                    refine ⟨top, merged, fm, hparse2, hmg, ?_, ?_⟩
                    · simp [save_credential, hres, hmk, addDir, readToString, writeFs,
                        set_permissions, hfl, hrd, hpt, asTable, hmg, hwr, hop,
                        alget_alset_self]
                    · intro _ hu
                      cases hu
                  | true =>
                    by_cases hpm : mh ++ "/credential.toml" ∈ w.permErr
                    · right; right
                      refine ⟨top, merged, fm, hparse2, hmg, ?_, ?_⟩ <;>
                        simp [save_credential, hres, hmk, addDir, readToString, writeFs,
                          set_permissions, hfl, hrd, hpt, asTable, hmg, hwr, hop, hpm,
                          alget_alset_self]
                    · right; right
                      refine ⟨top, merged, 0o600, hparse2, hmg, ?_, fun _ _ => rfl⟩
                      simp [save_credential, hres, hmk, addDir, readToString, writeFs,
                        setMode, set_permissions, hfl, hrd, hpt, asTable, hmg, hwr, hop,
                        hpm, alget_alset_self, alset_alset]

theorem claim_C2_witness :
    alget (save_credential true "t" none wC2).2.files ("/h" ++ "/credential.toml") =
      alget wC2.files ("/h" ++ "/credential.toml")
    ∨ (alget wC2.files ("/h" ++ "/credential.toml") = none ∧
       (save_credential true "t" none wC2).1 ≠ Out.ok () ∧
       alget (save_credential true "t" none wC2).2.files ("/h" ++ "/credential.toml") =
         some { data := TomlText.empty, mode := wC2.createMode })
    ∨ (∃ top merged m,
       parseToml (fileData wC2 ("/h" ++ "/credential.toml")) = Except.ok (Toml.table top) ∧
       mergeToken top "t" = Out.ok merged ∧
       alget (save_credential true "t" none wC2).2.files ("/h" ++ "/credential.toml") =
         some { data := TomlText.render merged, mode := m } ∧
       ((save_credential true "t" none wC2).1 = Out.ok () → true = true → m = 0o600)) :=
  claim_C2_last_completed_step true "t" none wC2 "/h" rfl

/-- C5: merge-and-persist is idempotent: on a well-formed credential
document (any "registry" entry is a table) a successful run followed by a
second run with the same token returns success again and leaves the world,
in particular the stored document, exactly as after the first run. -/
theorem claim_C5_idempotent (unix : Bool) (token : String) (tm : Option TestMode)
    (w : World) (mh : String) (top : List (String × Toml)) (m0 : Nat)
    (hres : resolveMoveHome w tm = Out.ok mh)
    (hmk : mh ∉ w.mkdirErr)
    (hfile : alget w.files (mh ++ "/credential.toml") =
      some { data := TomlText.render top, mode := m0 })
    (hrd : alget w.readErr (mh ++ "/credential.toml") = none)
    (hwf : ∀ v, alget top "registry" = some v → asTable v ≠ none)
    (hwr : mh ++ "/credential.toml" ∉ w.writeErr)
    (hop : mh ++ "/credential.toml" ∉ w.openErr)
    (hpm : mh ++ "/credential.toml" ∉ w.permErr) :
    (save_credential unix token tm w).1 = Out.ok () ∧
    ∃ w1, save_credential unix token tm w = (Out.ok (), w1) ∧
      save_credential unix token tm w1 = (Out.ok (), w1) := by
  have hex : ∃ mt, mergeToken top token = Out.ok mt := by
    cases hreg : alget top "registry" with
    | none => exact ⟨_, by unfold mergeToken; rw [hreg]⟩
    | some v =>
      cases hv : asTable v with
      | none => exact absurd hv (hwf v hreg)
      | some rt =>
        exact ⟨alset top "registry" (Toml.table (alset rt "token" (Toml.str token))),
          by unfold mergeToken; rw [hreg]; simp [hv]⟩
  obtain ⟨merged, hmg⟩ := hex
  have h1 := save_run_file unix token tm w mh (TomlText.render top) m0 top merged
    hres hmk hfile hrd rfl hmg hwr hop hpm
  refine ⟨by rw [h1], ?_⟩
  refine ⟨_, h1, ?_⟩
  have hres2 : resolveMoveHome
      ({ addDir w mh with
          files := alset w.files (mh ++ "/credential.toml")
            { data := TomlText.render merged, mode := if unix then 0o600 else m0 } }) tm =
      Out.ok mh := (resolveMoveHome_env w _ tm rfl).trans hres
  have hfile2 : alget
      ({ addDir w mh with
          files := alset w.files (mh ++ "/credential.toml")
            { data := TomlText.render merged, mode := if unix then 0o600 else m0 } } : World).files
      (mh ++ "/credential.toml") =
      some { data := TomlText.render merged, mode := if unix then 0o600 else m0 } :=
    alget_alset_self _ _ _
  have h2 := save_run_file unix token tm
    ({ addDir w mh with
        files := alset w.files (mh ++ "/credential.toml")
          { data := TomlText.render merged, mode := if unix then 0o600 else m0 } })
    mh (TomlText.render merged) (if unix then 0o600 else m0) merged merged
    hres2 hmk hfile2 hrd rfl (mergeToken_idem top merged token hmg) hwr hop hpm
  rw [h2]
  have hdd : addDir
      ({ addDir w mh with
          files := alset w.files (mh ++ "/credential.toml")
            { data := TomlText.render merged, mode := if unix then 0o600 else m0 } }) mh =
      { addDir w mh with
          files := alset w.files (mh ++ "/credential.toml")
            { data := TomlText.render merged, mode := if unix then 0o600 else m0 } } :=
    addDir_of_mem _ mh (mem_addDir w mh)
  rw [hdd]
  have hmode : (if unix then (0o600 : Nat) else if unix then 0o600 else m0) =
      if unix then 0o600 else m0 := by
    cases unix <;> simp
  rw [hmode, alset_self _ _ _ hfile2]

theorem claim_C5_witness :
    (save_credential true "t" none wC5).1 = Out.ok () ∧
    ∃ w1, save_credential true "t" none wC5 = (Out.ok (), w1) ∧
      save_credential true "t" none w1 = (Out.ok (), w1) :=
  claim_C5_idempotent true "t" none wC5 "/h"
    [("registry", Toml.table [("token", Toml.str "old")])] 420
    rfl (by decide) rfl rfl
    (by
      intro v hv
      simp [alget] at hv
      subst hv
      simp [asTable])
    (by decide) (by decide) (by decide)

end MoveLogin
